import Mathlib

/-!
Verification of the mixpanel-export-api client (src/index.js) against its
natural-language specification.

The JavaScript source is shallowly embedded: JS runtime values that the
`request` procedure inspects are modelled by `JSValue`; JS objects are
association lists in property-insertion order; lodash's `_.defaults`
(first source wins, filling only `undefined` slots), `_.zipObject` and
`_.pairs` are modelled entry by entry; `crypto`'s MD5 is implemented from
RFC 1321 over UTF-8 bytes; `Array.prototype.sort()`'s default comparator
(string comparison by code unit) is modelled by an insertion sort over a
lexicographic Boolean comparator on the characters.
-/

set_option maxRecDepth 8000
set_option maxHeartbeats 1000000

namespace MixpanelExport

/-- A JavaScript runtime value, restricted to the shapes the client code
inspects: `undefined`, strings, (integer) numbers, plain objects as ordered
key/value entry lists, and functions identified by an opaque tag. -/
inductive JSValue where
  | vUndefined : JSValue
  | vStr : String → JSValue
  | vNum : Int → JSValue
  | vObj : List (String × JSValue) → JSValue
  | vFun : Nat → JSValue

/-- A JavaScript object: its own enumerable properties in insertion order. -/
abbrev JSObj := List (String × JSValue)

/-- Property read `o[k]`: first entry with the key, `undefined` if absent. -/
def getProp : JSObj → String → JSValue
  | [], _ => .vUndefined
  | (k, v) :: rest, key => if k = key then v else getProp rest key

/-- Property write `o[k] = v`: replaces an existing entry in place, otherwise
appends the new entry (JS insertion-order semantics). -/
def setProp : JSObj → String → JSValue → JSObj
  | [], key, v => [(key, v)]
  | (k, w) :: rest, key, v =>
      if k = key then (key, v) :: rest else (k, w) :: setProp rest key v

/-- The `x === undefined` test used by lodash `_.defaults`. -/
def JSValue.isUndef : JSValue → Bool
  | .vUndefined => true
  | _ => false

/-- One step of lodash `_.defaults(dst, src)`: walk the source's entries in
order and assign each one whose key still resolves to `undefined` in the
destination.  Earlier-assigned values are never overwritten (first wins). -/
def defaultsInto : JSObj → JSObj → JSObj
  | dst, [] => dst
  | dst, (k, v) :: rest =>
      defaultsInto (if (getProp dst k).isUndef then setProp dst k v else dst) rest

/-- lodash `_.defaults(dst, s1, s2, ...)`: sources applied left to right,
each filling only keys that are still `undefined`. -/
def defaultsMany : JSObj → List JSObj → JSObj
  | dst, [] => dst
  | dst, src :: rest => defaultsMany (defaultsInto dst src) rest

/-- lodash `_.zipObject(keys, values)`: `result[keys[i]] = values[i]`,
assignments performed in index order, missing values read as `undefined`. -/
def zipObjectAux : List String → List JSValue → JSObj → JSObj
  | [], _, acc => acc
  | k :: ks, vals, acc => zipObjectAux ks vals.tail (setProp acc k (vals.headD .vUndefined))

/-- lodash `_.zipObject(keys, values)` starting from an empty object. -/
def zipObject (keys : List String) (values : List JSValue) : JSObj :=
  zipObjectAux keys values []

/-- JS truthiness of the values in our model (`!callback` check). -/
def truthy : JSValue → Bool
  | .vUndefined => false
  | .vStr s => decide (s ≠ "")
  | .vNum n => decide (n ≠ 0)
  | .vObj _ => true
  | .vFun _ => true

/-- The `typeof x === 'function'` test. -/
def isFunction : JSValue → Bool
  | .vFun _ => true
  | _ => false

/-- String coercion of a value used as a property key (`spec[endPoint]`). -/
def propKey : JSValue → String
  | .vUndefined => "undefined"
  | .vStr s => s
  | .vNum n => toString n
  | .vObj _ => "[object Object]"
  | .vFun i => "function " ++ toString i

/-- UTF-8 encoding of one Unicode code point. -/
def utf8EncodeChar (c : Nat) : List Nat :=
  if c < 128 then [c]
  else if c < 2048 then [192 + c / 64, 128 + c % 64]
  else if c < 65536 then [224 + c / 4096, 128 + c / 64 % 64, 128 + c % 64]
  else [240 + c / 262144, 128 + c / 4096 % 64, 128 + c / 64 % 64, 128 + c % 64]

/-- The UTF-8 bytes of a string (`md5.update(s, 'utf8')` hashes these). -/
def utf8Bytes (s : String) : List Nat :=
  (s.data.map (fun ch => utf8EncodeChar ch.toNat)).flatten

/-- Addition modulo 2^32. -/
def add32 (a b : Nat) : Nat := (a + b) % 4294967296

/-- Bitwise complement on 32 bits. -/
def not32 (a : Nat) : Nat := a ^^^ 4294967295

/-- Left rotation of a 32-bit word by `s` places (`0 < s < 32`). -/
def rotl32 (x s : Nat) : Nat := (x * 2 ^ s + x / 2 ^ (32 - s)) % 4294967296

/-- The 64 MD5 sine-derived constants of RFC 1321. -/
def md5K : List Nat :=
  [0xd76aa478, 0xe8c7b756, 0x242070db, 0xc1bdceee,
   0xf57c0faf, 0x4787c62a, 0xa8304613, 0xfd469501,
   0x698098d8, 0x8b44f7af, 0xffff5bb1, 0x895cd7be,
   0x6b901122, 0xfd987193, 0xa679438e, 0x49b40821,
   0xf61e2562, 0xc040b340, 0x265e5a51, 0xe9b6c7aa,
   0xd62f105d, 0x02441453, 0xd8a1e681, 0xe7d3fbc8,
   0x21e1cde6, 0xc33707d6, 0xf4d50d87, 0x455a14ed,
   0xa9e3e905, 0xfcefa3f8, 0x676f02d9, 0x8d2a4c8a,
   0xfffa3942, 0x8771f681, 0x6d9d6122, 0xfde5380c,
   0xa4beea44, 0x4bdecfa9, 0xf6bb4b60, 0xbebfbc70,
   0x289b7ec6, 0xeaa127fa, 0xd4ef3085, 0x04881d05,
   0xd9d4d039, 0xe6db99e5, 0x1fa27cf8, 0xc4ac5665,
   0xf4292244, 0x432aff97, 0xab9423a7, 0xfc93a039,
   0x655b59c3, 0x8f0ccc92, 0xffeff47d, 0x85845dd1,
   0x6fa87e4f, 0xfe2ce6e0, 0xa3014314, 0x4e0811a1,
   0xf7537e82, 0xbd3af235, 0x2ad7d2bb, 0xeb86d391]

/-- The per-round left-rotation amounts of RFC 1321. -/
def md5S : List Nat :=
  [7, 12, 17, 22, 7, 12, 17, 22, 7, 12, 17, 22, 7, 12, 17, 22,
   5, 9, 14, 20, 5, 9, 14, 20, 5, 9, 14, 20, 5, 9, 14, 20,
   4, 11, 16, 23, 4, 11, 16, 23, 4, 11, 16, 23, 4, 11, 16, 23,
   6, 10, 15, 21, 6, 10, 15, 21, 6, 10, 15, 21, 6, 10, 15, 21]

/-- The round function F/G/H/I of MD5, selected by the round index. -/
def md5F (i b c d : Nat) : Nat :=
  if i < 16 then (b &&& c) ||| (not32 b &&& d)
  else if i < 32 then (d &&& b) ||| (not32 d &&& c)
  else if i < 48 then b ^^^ c ^^^ d
  else c ^^^ (b ||| not32 d)

/-- The message-word index used in round `i` of MD5. -/
def md5G (i : Nat) : Nat :=
  if i < 16 then i
  else if i < 32 then (5 * i + 1) % 16
  else if i < 48 then (3 * i + 5) % 16
  else (7 * i) % 16

/-- Little-endian 32-bit word `j` of a 64-byte block. -/
def blockWord (block : List Nat) (j : Nat) : Nat :=
  block.getD (4 * j) 0 + 256 * block.getD (4 * j + 1) 0 +
    65536 * block.getD (4 * j + 2) 0 + 16777216 * block.getD (4 * j + 3) 0

/-- One of the 64 MD5 rounds on the state `(a, b, c, d)`. -/
def md5Step (block : List Nat) (st : Nat × Nat × Nat × Nat) (i : Nat) : Nat × Nat × Nat × Nat :=
  match st with
  | (a, b, c, d) =>
      let f := add32 (add32 (add32 a (md5F i b c d)) (md5K.getD i 0))
        (blockWord block (md5G i))
      (d, add32 b (rotl32 f (md5S.getD i 0)), b, c)

/-- Process one 64-byte block, adding the round result into the state. -/
def md5ProcessBlock (st : Nat × Nat × Nat × Nat) (block : List Nat) : Nat × Nat × Nat × Nat :=
  match st with
  | (a0, b0, c0, d0) =>
      match (List.range 64).foldl (md5Step block) (a0, b0, c0, d0) with
      | (a, b, c, d) => (add32 a0 a, add32 b0 b, add32 c0 c, add32 d0 d)

/-- Process `n` consecutive 64-byte blocks of the padded message. -/
def md5Blocks : Nat → List Nat → Nat × Nat × Nat × Nat → Nat × Nat × Nat × Nat
  | 0, _, st => st
  | n + 1, bytes, st => md5Blocks n (bytes.drop 64) (md5ProcessBlock st (bytes.take 64))

/-- MD5 padding: a `0x80` byte, zeros to 56 mod 64, then the bit length as a
64-bit little-endian integer. -/
def md5Pad (msg : List Nat) : List Nat :=
  msg ++ 128 :: List.replicate ((119 - msg.length % 64) % 64) 0 ++
    (List.range 8).map (fun i => msg.length * 8 / 2 ^ (8 * i) % 256)

/-- The four little-endian bytes of a 32-bit word. -/
def wordLEBytes (x : Nat) : List Nat :=
  [x % 256, x / 256 % 256, x / 65536 % 256, x / 16777216 % 256]

/-- The 16-byte MD5 digest of a byte sequence. -/
def md5Digest (msg : List Nat) : List Nat :=
  match md5Blocks ((md5Pad msg).length / 64) (md5Pad msg)
      (0x67452301, 0xefcdab89, 0x98badcfe, 0x10325476) with
  | (a, b, c, d) => wordLEBytes a ++ wordLEBytes b ++ wordLEBytes c ++ wordLEBytes d

/-- Lowercase hexadecimal digit. -/
def hexDigit (n : Nat) : Char :=
  if n < 10 then Char.ofNat (48 + n) else Char.ofNat (87 + n)

/-- Two lowercase hexadecimal digits of a byte. -/
def byteToHex (b : Nat) : List Char := [hexDigit (b / 16), hexDigit (b % 16)]

/-- `crypto.createHash('md5').update(s, 'utf8').digest('hex')`: the lowercase
32-character hexadecimal MD5 digest of the UTF-8 bytes of `s`. -/
def md5Hex (s : String) : String :=
  String.mk ((md5Digest (utf8Bytes s)).map byteToHex).flatten

/-- Character-list comparison by code point, the order JavaScript's default
`Array.prototype.sort()` comparator induces on (BMP) strings. -/
def listLeB : List Char → List Char → Bool
  | [], _ => true
  | _ :: _, [] => false
  | a :: as, b :: bs => if a = b then listLeB as bs else decide (a < b)

/-- String comparison used to model `.sort()` on the `"key=value"` strings. -/
def strLeB (a b : String) : Bool := listLeB a.data b.data

/-- The propositional form of `strLeB`, for use with `List.insertionSort`. -/
def strLe (a b : String) : Prop := strLeB a b = true

instance : DecidableRel strLe := fun a b => inferInstanceAs (Decidable (strLeB a b = true))

/-- String coercion performed by `pair.join('=')` on the pair's value
(`Array.prototype.join` renders `undefined` as the empty string). -/
def joinStrCoerce : JSValue → String
  | .vUndefined => ""
  | .vStr s => s
  | .vNum n => toString n
  | .vObj _ => "[object Object]"
  | .vFun i => "function " ++ toString i

/-- The source's `joinPairs` helper, `pair.join('=')`, applied to one
`_.pairs` entry. -/
def joinPair (p : String × JSValue) : String := p.1 ++ "=" ++ joinStrCoerce p.2

/-- `MixpanelExportAPI.prototype.sign`: join each `_.pairs` entry with `=`,
sort the resulting strings, concatenate them, append the secret, and take the
lowercase hex MD5 digest. -/
def sign (secret : String) (parameters : JSObj) : String :=
  md5Hex (String.join (List.insertionSort strLe (parameters.map joinPair)) ++ secret)

/-- One client instance: the credentials plus the construction-time options
after the constructor has merged the caller overrides with `defaultOptions`,
so `expire` here is the configured request-expiry window in seconds. -/
structure Client where
  key : String
  secret : String
  domain : String
  apiRoot : String
  protocol : String
  expire : Int

/-- `var systemOptions = ...`: internal system options that can't be
overridden (they sit before the caller layers in the `_.defaults` call). -/
def systemOptions : JSObj := [("format", .vStr "json")]

/-- The endpoint-specification table: endpoint name to the ordered list of
its required argument names, looked up by `spec[endPoint]`. -/
abbrev SpecTable := List (String × List String)

/-- `spec[endPoint]` for a table held as an association list. -/
def specLookup : SpecTable → String → Option (List String)
  | [], _ => none
  | (name, args) :: rest, key => if name = key then some args else specLookup rest key

/-- Modelled from the spec: the `api_specification` table required at
src/index.js line 9 is not included under src/, so its entries are taken
from the spec document: section 8 fixes `events/top` at zero required
arguments, and the worked `funnels` example (also in the source's doc
comment) passes exactly one required argument, the funnel id. -/
def mixpanelSpec : SpecTable := [("events/top", []), ("funnels", ["funnel_id"])]

/-- The object literal used for `options` when the options slot held the
callback, together with the entry list of a caller-supplied options object.
Values that are not plain objects contribute no own enumerable string-keyed
entries that the claims exercise. -/
def objEntries : JSValue → JSObj
  | .vObj l => l
  | _ => []

/-- The observable outcome of one `request(...)` invocation: either a
synchronously thrown error (no parameter map is kept and no HTTP request is
issued), or an HTTP GET dispatched for the endpoint with the fully assembled
parameter map (including `sig`) and the resolved callback value. -/
inductive RequestOutcome where
  | thrown : String → RequestOutcome
  | sent : String → JSObj → JSValue → RequestOutcome

/-- The `_.defaults` merge of src/index.js lines 115-121: destination is the
api_key entry, then the sources `systemOptions`, `_.zipObject` of the
required names and values, the caller options, and last the computed expiry
`Math.floor(Date.now() / 1000) + this.options.expire`, passed in here as
`expireVal`. -/
def assembleParameters (key : String) (expireVal : Int) (requiredArguments : List String)
    (required : List JSValue) (options : JSObj) : JSObj :=
  defaultsMany [("api_key", .vStr key)]
    [systemOptions, zipObject requiredArguments required, options,
     [("expire", .vNum expireVal)]]

/-- `MixpanelExportAPI.prototype.request`: `argsAll` is the full variadic
argument list (endpoint first); `now` is `Math.floor(Date.now() / 1000)`. -/
def request (tbl : SpecTable) (c : Client) (now : Int) (argsAll : List JSValue) :
    RequestOutcome :=
  let endPoint := propKey (argsAll.headD .vUndefined)
  let args := argsAll.tail
  match specLookup tbl endPoint with
  | none =>
      .thrown ("The end-point \"" ++ endPoint ++
        "\" is not supported by the mixpanel export api.")
  | some requiredArguments =>
      let required := args.take requiredArguments.length
      let options0 := args.getD requiredArguments.length .vUndefined
      let callback0 := args.getD (requiredArguments.length + 1) .vUndefined
      let callback := if isFunction options0 then options0 else callback0
      let options := if isFunction options0 then JSValue.vObj [] else options0
      if truthy callback = false then .thrown "A callback is required."
      else if required.length ≠ requiredArguments.length then
        .thrown "A required argument for this endpoint is missing."
      else
        let parameters0 := assembleParameters c.key (now + c.expire) requiredArguments
          required (objEntries options)
        .sent endPoint (setProp parameters0 "sig" (.vStr (sign c.secret parameters0)))
          callback

/-- Whether the call reached the transport (no synchronous throw). -/
def RequestOutcome.isSent : RequestOutcome → Bool
  | .sent _ _ _ => true
  | .thrown _ => false

/-- The assembled parameter map of a dispatched call (empty on a throw). -/
def sentParams : RequestOutcome → JSObj
  | .sent _ p _ => p
  | .thrown _ => []

/-- Characters `encodeURIComponent` leaves unescaped, by byte value. -/
def qsKeep (b : Nat) : Bool :=
  (48 ≤ b && b ≤ 57) || (65 ≤ b && b ≤ 90) || (97 ≤ b && b ≤ 122) ||
    b == 45 || b == 95 || b == 46 || b == 33 || b == 126 || b == 42 ||
    b == 39 || b == 40 || b == 41

/-- Uppercase hexadecimal digit, for percent escapes. -/
def hexDigitUpper (n : Nat) : Char :=
  if n < 10 then Char.ofNat (48 + n) else Char.ofNat (55 + n)

/-- Percent-encoding of a component as `querystring.stringify` performs it. -/
def uriEncode (s : String) : String :=
  String.mk (((utf8Bytes s).map (fun b =>
    if qsKeep b then [Char.ofNat b]
    else ['%', hexDigitUpper (b / 16), hexDigitUpper (b % 16)])).flatten)

/-- The value coercion of `querystring.stringify`: strings kept, numbers
rendered in decimal, anything else rendered empty. -/
def qsCoerce : JSValue → String
  | .vStr s => s
  | .vNum n => toString n
  | _ => ""

/-- The query string serialized from the parameter map in entry order. -/
def queryString (params : JSObj) : String :=
  String.intercalate "&" (params.map
    (fun p => uriEncode p.1 ++ "=" ++ uriEncode (qsCoerce p.2)))

/-- `url.format(...)` from src/index.js lines 125-130: scheme, host, the
joined path and the serialized query. -/
def requestUrl (protocol domain apiRoot endPoint : String) (params : JSObj) : String :=
  protocol ++ "://" ++ domain ++ apiRoot ++ "/" ++ endPoint ++ "?" ++ queryString params

/-- Drop every `sig` entry of a parameter map. -/
def stripSig (p : JSObj) : JSObj := p.filter (fun e => !(e.1 == "sig"))

/-- An outcome with the `sig` entry of a dispatched parameter map removed. -/
def stripSigOutcome : RequestOutcome → RequestOutcome
  | .thrown m => .thrown m
  | .sent ep p cb => .sent ep (stripSig p) cb

/-- The request URL a dispatched outcome would serialize to, with the `sig`
query parameter removed; `none` when the call threw. -/
def outcomeUrlNoSig (c : Client) : RequestOutcome → Option String
  | .thrown _ => none
  | .sent ep p _ => some (requestUrl c.protocol c.domain c.apiRoot ep (stripSig p))

/-- The URL an already-`sig`-stripped outcome serializes to. -/
def urlFromStripped (c : Client) : RequestOutcome → Option String
  | .thrown _ => none
  | .sent ep p _ => some (requestUrl c.protocol c.domain c.apiRoot ep p)

/-- `endPoint.replace(/\//g, '_')`: the vanity method name of an endpoint. -/
def methodName (ep : String) : String :=
  String.mk (ep.data.map (fun ch => if ch = '/' then '_' else ch))

/-- The body of a generated vanity method: coerce the arguments to an array,
`unshift` the endpoint name, and `apply` the generic `request`. -/
def vanityCall (tbl : SpecTable) (endPoint : String) (c : Client) (now : Int)
    (args : List JSValue) : RequestOutcome :=
  request tbl c now (.vStr endPoint :: args)

/-- The `_.forEach(spec, ...)` generator: for every endpoint of the table,
one prototype entry mapping the underscored name to the vanity body. -/
def vanityMethods (tbl : SpecTable) :
    List (String × (Client → Int → List JSValue → RequestOutcome)) :=
  tbl.map (fun e => (methodName e.1, vanityCall tbl e.1))

/-- A concrete client for the ground witnesses: key `K`, secret `S`,
default construction options. -/
def testClient : Client :=
  { key := "K", secret := "S", domain := "mixpanel.com", apiRoot := "/api/2.0",
    protocol := "https", expire := 60 }

/-! ### Object-map lemmas -/

theorem getProp_setProp_self (l : JSObj) (k : String) (v : JSValue) :
    getProp (setProp l k v) k = v := by
  induction l with
  | nil => simp [setProp, getProp]
  | cons e rest ih =>
      obtain ⟨k1, w⟩ := e
      by_cases h : k1 = k
      · simp [setProp, h, getProp]
      · simp [setProp, h, getProp, ih]

theorem getProp_setProp_ne (l : JSObj) (k k' : String) (v : JSValue) (h : k ≠ k') :
    getProp (setProp l k v) k' = getProp l k' := by
  induction l with
  | nil => simp [setProp, getProp, h]
  | cons e rest ih =>
      obtain ⟨k1, w⟩ := e
      by_cases h1 : k1 = k
      · subst h1; simp [setProp, getProp, h]
      · simp [setProp, h1, getProp, ih]

theorem mem_setProp_ne (l : JSObj) (k k' : String) (v w : JSValue)
    (hmem : (k', w) ∈ setProp l k v) (hne : k' ≠ k) : (k', w) ∈ l := by
  induction l with
  | nil =>
      simp [setProp] at hmem
      exact absurd hmem.1 hne
  | cons e rest ih =>
      obtain ⟨k1, w1⟩ := e
      by_cases h1 : k1 = k
      · simp only [setProp, if_pos h1, List.mem_cons] at hmem
        rcases hmem with h | h
        · exact absurd (congrArg Prod.fst h) hne
        · exact List.mem_cons_of_mem _ h
      · simp only [setProp, if_neg h1, List.mem_cons] at hmem
        rcases hmem with h | h
        · exact h ▸ List.mem_cons_self _ _
        · exact List.mem_cons_of_mem _ (ih h)

theorem getProp_eq_undef_of_not_mem (l : JSObj) (k : String)
    (h : ∀ w, (k, w) ∉ l) : getProp l k = .vUndefined := by
  induction l with
  | nil => rfl
  | cons e rest ih =>
      obtain ⟨k1, w1⟩ := e
      have hne : k1 ≠ k := by
        intro hk; subst hk; exact h w1 (List.mem_cons_self _ _)
      simp only [getProp, if_neg hne]
      exact ih fun w hw => h w (List.mem_cons_of_mem _ hw)

/-! ### Lodash `_.defaults` precedence lemmas: a key already holding a
defined value is never overwritten; an undefined key takes the first defined
value a source supplies. -/

theorem defaultsInto_getProp_keep (dst src : JSObj) (k : String)
    (h : (getProp dst k).isUndef = false) :
    getProp (defaultsInto dst src) k = getProp dst k := by
  induction src generalizing dst with
  | nil => rfl
  | cons e rest ih =>
      obtain ⟨k1, v1⟩ := e
      simp only [defaultsInto]
      by_cases h1 : k1 = k
      · subst h1
        rw [if_neg (by simp [h])]
        exact ih dst h
      · by_cases h2 : (getProp dst k1).isUndef = true
        · rw [if_pos h2, ih _ (by rwa [getProp_setProp_ne _ _ _ _ h1]),
            getProp_setProp_ne _ _ _ _ h1]
        · rw [if_neg h2]
          exact ih dst h

theorem defaultsInto_getProp_fill (dst src : JSObj) (k : String) (v : JSValue)
    (hdst : (getProp dst k).isUndef = true)
    (hsrc : getProp src k = v) (hv : v.isUndef = false) :
    getProp (defaultsInto dst src) k = v := by
  induction src generalizing dst with
  | nil =>
      rw [← hsrc] at hv
      simp [getProp, JSValue.isUndef] at hv
  | cons e rest ih =>
      obtain ⟨k1, v1⟩ := e
      simp only [defaultsInto]
      by_cases h1 : k1 = k
      · subst h1
        have hv1 : v1 = v := by simpa [getProp] using hsrc
        subst hv1
        rw [if_pos hdst]
        rw [defaultsInto_getProp_keep _ _ _ (by rw [getProp_setProp_self]; exact hv)]
        exact getProp_setProp_self _ _ _
      · have hsrc' : getProp rest k = v := by simpa [getProp, h1] using hsrc
        by_cases h2 : (getProp dst k1).isUndef = true
        · rw [if_pos h2]
          exact ih _ (by rwa [getProp_setProp_ne _ _ _ _ h1]) hsrc'
        · rw [if_neg h2]
          exact ih dst hdst hsrc'

theorem defaultsInto_getProp_no_entry (dst src : JSObj) (k : String)
    (h : ∀ w, (k, w) ∉ src) :
    getProp (defaultsInto dst src) k = getProp dst k := by
  induction src generalizing dst with
  | nil => rfl
  | cons e rest ih =>
      obtain ⟨k1, v1⟩ := e
      have hne : k1 ≠ k := by
        intro hk; subst hk; exact h v1 (List.mem_cons_self _ _)
      have hrest : ∀ w, (k, w) ∉ rest := fun w hw => h w (List.mem_cons_of_mem _ hw)
      simp only [defaultsInto]
      by_cases h2 : (getProp dst k1).isUndef = true
      · rw [if_pos h2, ih _ hrest, getProp_setProp_ne _ _ _ _ hne]
      · rw [if_neg h2]
        exact ih dst hrest

theorem mem_zipObjectAux (ks : List String) (k : String) (hks : k ∉ ks) :
    ∀ (vs : List JSValue) (acc : JSObj), (∀ w, (k, w) ∉ acc) →
      ∀ w, (k, w) ∉ zipObjectAux ks vs acc := by
  induction ks with
  | nil => intro vs acc hacc w; simpa [zipObjectAux] using hacc w
  | cons k1 rest ih =>
      intro vs acc hacc w
      have h1 : k ≠ k1 := fun h => hks (h ▸ List.mem_cons_self _ _)
      have hks' : k ∉ rest := fun h => hks (List.mem_cons_of_mem _ h)
      exact ih hks' vs.tail _
        (fun w' hw' => hacc w' (mem_setProp_ne _ _ _ _ _ hw' h1)) w

theorem zipObject_no_entry (keys : List String) (vals : List JSValue) (k : String)
    (h : k ∉ keys) : ∀ w, (k, w) ∉ zipObject keys vals :=
  mem_zipObjectAux keys k h vals [] (by simp)

/-! ### The assembled parameter map, key by key -/

theorem assembleParameters_format (key : String) (ev : Int) (rargs : List String)
    (req : List JSValue) (opts : JSObj) :
    getProp (assembleParameters key ev rargs req opts) "format" = .vStr "json" := by
  have h1 : getProp (defaultsInto [("api_key", JSValue.vStr key)] systemOptions) "format"
      = .vStr "json" :=
    defaultsInto_getProp_fill _ _ _ _ (by simp [getProp, JSValue.isUndef])
      (by simp [getProp, systemOptions]) (by simp [JSValue.isUndef])
  have h2 : getProp (defaultsInto (defaultsInto [("api_key", JSValue.vStr key)] systemOptions)
      (zipObject rargs req)) "format" = .vStr "json" := by
    rw [defaultsInto_getProp_keep _ _ _ (by rw [h1]; rfl), h1]
  have h3 : getProp (defaultsInto (defaultsInto (defaultsInto
      [("api_key", JSValue.vStr key)] systemOptions) (zipObject rargs req)) opts) "format"
      = .vStr "json" := by
    rw [defaultsInto_getProp_keep _ _ _ (by rw [h2]; rfl), h2]
  have h4 : getProp (defaultsInto (defaultsInto (defaultsInto (defaultsInto
      [("api_key", JSValue.vStr key)] systemOptions) (zipObject rargs req)) opts)
      [("expire", JSValue.vNum ev)]) "format" = .vStr "json" := by
    rw [defaultsInto_getProp_keep _ _ _ (by rw [h3]; rfl), h3]
  simpa only [assembleParameters, defaultsMany] using h4

theorem assembleParameters_expire (key : String) (ev : Int) (rargs : List String)
    (req : List JSValue) (opts : JSObj) (v : JSValue)
    (hnr : "expire" ∉ rargs) (hopt : getProp opts "expire" = v) (hv : v.isUndef = false) :
    getProp (assembleParameters key ev rargs req opts) "expire" = v := by
  have h1 : getProp (defaultsInto [("api_key", JSValue.vStr key)] systemOptions) "expire"
      = .vUndefined := by
    rw [defaultsInto_getProp_no_entry _ _ _ ?hno]
    · rfl
    case hno =>
      intro w hw
      simp [systemOptions] at hw
  have h2 : getProp (defaultsInto (defaultsInto [("api_key", JSValue.vStr key)] systemOptions)
      (zipObject rargs req)) "expire" = .vUndefined := by
    rw [defaultsInto_getProp_no_entry _ _ _ (zipObject_no_entry _ _ _ hnr), h1]
  have h3 : getProp (defaultsInto (defaultsInto (defaultsInto
      [("api_key", JSValue.vStr key)] systemOptions) (zipObject rargs req)) opts) "expire"
      = v :=
    defaultsInto_getProp_fill _ _ _ _ (by rw [h2]; rfl) hopt hv
  have h4 : getProp (defaultsInto (defaultsInto (defaultsInto (defaultsInto
      [("api_key", JSValue.vStr key)] systemOptions) (zipObject rargs req)) opts)
      [("expire", JSValue.vNum ev)]) "expire" = v := by
    rw [defaultsInto_getProp_keep _ _ _ (by rw [h3]; exact hv), h3]
  simpa only [assembleParameters, defaultsMany] using h4

theorem assembleParameters_required (key : String) (ev : Int) (rargs : List String)
    (req : List JSValue) (opts : JSObj) (k : String) (v : JSValue)
    (hzip : getProp (zipObject rargs req) k = v) (hv : v.isUndef = false)
    (hk1 : k ≠ "api_key") (hk2 : k ≠ "format") :
    getProp (assembleParameters key ev rargs req opts) k = v := by
  have h1 : getProp (defaultsInto [("api_key", JSValue.vStr key)] systemOptions) k
      = .vUndefined := by
    rw [defaultsInto_getProp_no_entry _ _ _ ?hno]
    · simp [getProp, Ne.symm hk1]
    case hno =>
      intro w hw
      simp [systemOptions] at hw
      exact hk2 hw.1
  have h2 : getProp (defaultsInto (defaultsInto [("api_key", JSValue.vStr key)] systemOptions)
      (zipObject rargs req)) k = v :=
    defaultsInto_getProp_fill _ _ _ _ (by rw [h1]; rfl) hzip hv
  have h3 : getProp (defaultsInto (defaultsInto (defaultsInto
      [("api_key", JSValue.vStr key)] systemOptions) (zipObject rargs req)) opts) k = v := by
    rw [defaultsInto_getProp_keep _ _ _ (by rw [h2]; exact hv), h2]
  have h4 : getProp (defaultsInto (defaultsInto (defaultsInto (defaultsInto
      [("api_key", JSValue.vStr key)] systemOptions) (zipObject rargs req)) opts)
      [("expire", JSValue.vNum ev)]) k = v := by
    rw [defaultsInto_getProp_keep _ _ _ (by rw [h3]; exact hv), h3]
  simpa only [assembleParameters, defaultsMany] using h4

theorem stripSig_setProp (p : JSObj) (v : JSValue) :
    stripSig (setProp p "sig" v) = stripSig p := by
  induction p with
  | nil => simp [setProp, stripSig]
  | cons e rest ih =>
      obtain ⟨k1, w1⟩ := e
      by_cases h : k1 = "sig"
      · subst h
        simp [setProp, stripSig]
      · simp only [setProp, if_neg h, stripSig, List.filter]
        have hb : (k1 == "sig") = false := by
          simpa using h
        rw [hb]
        simpa [stripSig] using ih

/-! ### The order underlying the signature sort -/

theorem listLeB_total (a : List Char) : ∀ b, listLeB a b = true ∨ listLeB b a = true := by
  induction a with
  | nil => intro b; left; rfl
  | cons x xs ih =>
      intro b
      cases b with
      | nil => right; rfl
      | cons y ys =>
          by_cases h : x = y
          · subst h
            simpa [listLeB] using ih ys
          · rcases lt_or_gt_of_ne h with hlt | hgt
            · left; simp [listLeB, h, hlt]
            · right; simp [listLeB, Ne.symm h, hgt]

theorem listLeB_trans (a : List Char) : ∀ b c, listLeB a b = true →
    listLeB b c = true → listLeB a c = true := by
  induction a with
  | nil => intro b c _ _; rfl
  | cons x xs ih =>
      intro b c hab hbc
      cases b with
      | nil => simp [listLeB] at hab
      | cons y ys =>
          cases c with
          | nil => simp [listLeB] at hbc
          | cons z zs =>
              by_cases hxy : x = y
              · subst hxy
                by_cases hyz : x = z
                · subst hyz
                  simp only [listLeB, if_pos rfl] at hab hbc ⊢
                  exact ih ys zs hab hbc
                · simp only [listLeB, if_neg hyz] at hbc ⊢
                  exact hbc
              · simp only [listLeB, if_neg hxy] at hab
                by_cases hyz : y = z
                · subst hyz
                  simp only [listLeB, if_neg hxy]
                  exact hab
                · simp only [listLeB, if_neg hyz] at hbc
                  have hxz : x < z := lt_trans (by simpa using hab) (by simpa using hbc)
                  simp [listLeB, ne_of_lt hxz, hxz]

theorem listLeB_antisymm (a : List Char) : ∀ b, listLeB a b = true →
    listLeB b a = true → a = b := by
  induction a with
  | nil =>
      intro b hab hba
      cases b with
      | nil => rfl
      | cons y ys => simp [listLeB] at hba
  | cons x xs ih =>
      intro b hab hba
      cases b with
      | nil => simp [listLeB] at hab
      | cons y ys =>
          by_cases h : x = y
          · subst h
            simp only [listLeB, if_pos rfl] at hab hba
            rw [ih ys hab hba]
          · simp only [listLeB, if_neg h] at hab
            simp only [listLeB, if_neg (Ne.symm h)] at hba
            exact absurd (by simpa using hba) (lt_asymm (by simpa using hab))

instance : IsTotal String strLe :=
  ⟨fun a b => listLeB_total a.data b.data⟩

instance : IsTrans String strLe :=
  ⟨fun a b c => listLeB_trans a.data b.data c.data⟩

instance : IsAntisymm String strLe := by
  constructor
  intro a b hab hba
  cases a with
  | mk da =>
      cases b with
      | mk db => exact congrArg String.mk (listLeB_antisymm da db hab hba)

theorem unsupported_msg_ne (ep : String) :
    ("The end-point \"" ++ ep ++ "\" is not supported by the mixpanel export api.")
      ≠ "A required argument for this endpoint is missing." := by
  intro h
  have hd := congrArg String.data h
  rw [String.data_append, String.data_append] at hd
  have h1 : ("The end-point \"" : String).data
      = 'T' :: ("he end-point \"" : String).data := rfl
  have h2 : ("A required argument for this endpoint is missing." : String).data
      = 'A' :: (" required argument for this endpoint is missing." : String).data := rfl
  rw [h1, h2, List.cons_append, List.cons_append] at hd
  injection hd with hhead _
  exact absurd hhead (by decide)

theorem outcomeUrlNoSig_eq (c : Client) (o : RequestOutcome) :
    outcomeUrlNoSig c o = urlFromStripped c (stripSigOutcome o) := by
  cases o <;> rfl

/-! ### The claims -/

/-- C1, counterexample: calling `events/top` with caller options carrying
`expire: 1` (client expiry 60 seconds, current time 1700000000) dispatches a
request whose assembled `expire` is the caller's `1`, not `now + 60`:
`_.defaults` gives the computed-expiry source the lowest precedence, so the
caller-supplied expire does appear in the final map. -/
theorem c1_counterexample :
    (request mixpanelSpec testClient 1700000000
        [.vStr "events/top", .vObj [("expire", .vNum 1)], .vFun 0]).isSent = true
    ∧ getProp (sentParams (request mixpanelSpec testClient 1700000000
        [.vStr "events/top", .vObj [("expire", .vNum 1)], .vFun 0])) "expire" = .vNum 1
    ∧ JSValue.vNum 1 ≠ JSValue.vNum (1700000000 + 60) := by
  refine ⟨rfl, rfl, ?_⟩
  intro h
  injection h with h'
  exact absurd h' (by decide)

/-- C1, amended: when the caller options carry an `expire` entry with a
defined value and no required argument of the endpoint is named `expire`,
the assembled parameter map's `expire` equals the caller-supplied value; the
computed `now + configuredExpirySeconds` is only a lowest-precedence
default. -/
theorem c1_amended_options_expire_wins (tbl : SpecTable) (c : Client) (now : Int)
    (ep : String) (rest : List JSValue) (rargs : List String) (v : JSValue)
    (hlook : specLookup tbl ep = some rargs)
    (hfun : isFunction (rest.getD rargs.length .vUndefined) = false)
    (hcb : truthy (rest.getD (rargs.length + 1) .vUndefined) = true)
    (hlen : rargs.length ≤ rest.length)
    (hnr : "expire" ∉ rargs)
    (hopt : getProp (objEntries (rest.getD rargs.length .vUndefined)) "expire" = v)
    (hv : v.isUndef = false) :
    (request tbl c now (.vStr ep :: rest)).isSent = true ∧
      getProp (sentParams (request tbl c now (.vStr ep :: rest))) "expire" = v := by
  have hlen2 : ¬rest.length < rargs.length := by omega
  simp only [List.getD_eq_getElem?_getD] at hfun hcb hopt
  constructor
  · simp [request, propKey, hlook, hfun, hcb, hlen2, RequestOutcome.isSent]
  · simp [request, propKey, hlook, hfun, hcb, hlen2, sentParams]
    rw [getProp_setProp_ne _ _ _ _ (by decide)]
    exact assembleParameters_expire _ _ _ _ _ _ hnr hopt hv

/-- Witness for C1's amended theorem at the counterexample input. -/
theorem c1_amended_witness :
    (request mixpanelSpec testClient 1700000000
        [.vStr "events/top", .vObj [("expire", .vNum 1)], .vFun 0]).isSent = true ∧
      getProp (sentParams (request mixpanelSpec testClient 1700000000
        [.vStr "events/top", .vObj [("expire", .vNum 1)], .vFun 0])) "expire" = .vNum 1 :=
  c1_amended_options_expire_wins mixpanelSpec testClient 1700000000 "events/top"
    [.vObj [("expire", .vNum 1)], .vFun 0] [] (.vNum 1)
    rfl rfl rfl (by decide) (by decide) rfl rfl

/-- C2, counterexample: `funnels` requires `funnel_id`; calling it with the
positional value `"A"` and caller options carrying `funnel_id: "B"` yields a
final map whose `funnel_id` is the positional `"A"`: in `_.defaults` the
`_.zipObject` source precedes the options source, so the options value does
not win. -/
theorem c2_counterexample :
    (request mixpanelSpec testClient 1700000000
        [.vStr "funnels", .vStr "A", .vObj [("funnel_id", .vStr "B")], .vFun 0]).isSent = true
    ∧ getProp (sentParams (request mixpanelSpec testClient 1700000000
        [.vStr "funnels", .vStr "A", .vObj [("funnel_id", .vStr "B")], .vFun 0]))
        "funnel_id" = .vStr "A"
    ∧ JSValue.vStr "A" ≠ JSValue.vStr "B" := by
  refine ⟨rfl, rfl, ?_⟩
  intro h
  injection h with h'
  exact absurd h' (by decide)

/-- C2, amended: when an endpoint's required argument `k` receives a defined
positional value, the final assembled map's value for `k` is that positional
value, whatever the caller options hold for `k` (for `k` other than the
reserved `api_key`, `format` and `sig` keys). -/
theorem c2_amended_required_wins (tbl : SpecTable) (c : Client) (now : Int)
    (ep : String) (rest : List JSValue) (rargs : List String) (k : String) (v : JSValue)
    (hlook : specLookup tbl ep = some rargs)
    (hfun : isFunction (rest.getD rargs.length .vUndefined) = false)
    (hcb : truthy (rest.getD (rargs.length + 1) .vUndefined) = true)
    (hlen : rargs.length ≤ rest.length)
    (hzip : getProp (zipObject rargs (rest.take rargs.length)) k = v)
    (hv : v.isUndef = false)
    (hk1 : k ≠ "api_key") (hk2 : k ≠ "format") (hk3 : k ≠ "sig") :
    (request tbl c now (.vStr ep :: rest)).isSent = true ∧
      getProp (sentParams (request tbl c now (.vStr ep :: rest))) k = v := by
  have hlen2 : ¬rest.length < rargs.length := by omega
  simp only [List.getD_eq_getElem?_getD] at hfun hcb
  constructor
  · simp [request, propKey, hlook, hfun, hcb, hlen2, RequestOutcome.isSent]
  · simp [request, propKey, hlook, hfun, hcb, hlen2, sentParams]
    rw [getProp_setProp_ne _ _ _ _ (Ne.symm hk3)]
    exact assembleParameters_required _ _ _ _ _ _ _ hzip hv hk1 hk2

/-- Witness for C2's amended theorem at the counterexample input. -/
theorem c2_amended_witness :
    (request mixpanelSpec testClient 1700000000
        [.vStr "funnels", .vStr "A", .vObj [("funnel_id", .vStr "B")], .vFun 0]).isSent
        = true ∧
      getProp (sentParams (request mixpanelSpec testClient 1700000000
        [.vStr "funnels", .vStr "A", .vObj [("funnel_id", .vStr "B")], .vFun 0]))
        "funnel_id" = .vStr "A" :=
  c2_amended_required_wins mixpanelSpec testClient 1700000000 "funnels"
    [.vStr "A", .vObj [("funnel_id", .vStr "B")], .vFun 0] ["funnel_id"] "funnel_id"
    (.vStr "A") rfl rfl rfl (by decide) rfl rfl (by decide) (by decide) (by decide)

/-- C3: on the parameter map with `api_key: "k"`, `format: "json"`,
`expire: 1000` and secret `"s"`, `sign` returns exactly the lowercase
32-character hexadecimal MD5 digest of the UTF-8 bytes of
`"api_key=kexpire=1000format=json"` concatenated with `"s"`; the digest is
pinned to the externally computed regression value. -/
theorem c3_known_vector :
    sign "s" [("api_key", .vStr "k"), ("format", .vStr "json"), ("expire", .vNum 1000)]
        = md5Hex ("api_key=kexpire=1000format=json" ++ "s")
      ∧ md5Hex ("api_key=kexpire=1000format=json" ++ "s")
        = "8d880afa11a211427e9f6e8b4fcf3f5a"
      ∧ ("8d880afa11a211427e9f6e8b4fcf3f5a" : String).length = 32
      ∧ ∀ ch ∈ ("8d880afa11a211427e9f6e8b4fcf3f5a" : String).data,
          ch ∈ ("0123456789abcdef" : String).data := by
  exact ⟨by decide, by decide, by decide, by decide⟩

/-- C4: the signature is invariant under permutation of the parameter map's
entries — the joined `"key=value"` strings are sorted before concatenation,
so insertion order cannot influence the digest. -/
theorem c4_sign_perm_invariant (secret : String) (l1 l2 : JSObj) (h : l1.Perm l2) :
    sign secret l1 = sign secret l2 := by
  have hs : List.insertionSort strLe (l1.map joinPair)
      = List.insertionSort strLe (l2.map joinPair) :=
    @List.eq_of_perm_of_sorted String strLe _ _ _
      (((List.perm_insertionSort strLe _).trans (h.map joinPair)).trans
        (List.perm_insertionSort strLe _).symm)
      (List.sorted_insertionSort strLe _) (List.sorted_insertionSort strLe _)
  unfold sign
  rw [hs]

/-- Witness for C4 at the spec's own example maps. -/
theorem c4_witness :
    sign "secret" [("b", .vNum 2), ("a", .vNum 1)]
      = sign "secret" [("a", .vNum 1), ("b", .vNum 2)] :=
  c4_sign_perm_invariant "secret" _ _ (List.Perm.swap _ _ _)

/-- C5: evaluating the code at the failing input — `funnels` requires one
argument, the call supplies none of it plus a callback — the thrown error is
the missing-callback message, not the missing-required-argument message the
claim (and the spec) demand. -/
theorem c5_code_evaluation :
    request mixpanelSpec testClient 1700000000 [.vStr "funnels", .vFun 0]
        = .thrown "A callback is required."
    ∧ "A callback is required." ≠ "A required argument for this endpoint is missing." :=
  ⟨rfl, by decide⟩

/-- C6: every dispatched call's assembled parameter map has `format = json`;
`systemOptions` precedes the caller options in the `_.defaults` merge, so no
caller option (and no required-argument value) can override it. -/
theorem c6_format_fixed (tbl : SpecTable) (c : Client) (now : Int)
    (argsAll : List JSValue) (ep : String) (p : JSObj) (cb : JSValue)
    (h : request tbl c now argsAll = .sent ep p cb) :
    getProp p "format" = .vStr "json" := by
  cases hlook : specLookup tbl (propKey (argsAll.headD .vUndefined)) with
  | none =>
      simp only [request, hlook] at h
      exact absurd h (by simp)
  | some rargs =>
      simp only [request, hlook] at h
      split at h
      all_goals split at h
      all_goals try (split at h)
      all_goals cases h
      all_goals
        rw [getProp_setProp_ne _ _ _ _ (by decide)]
        exact assembleParameters_format _ _ _ _ _

/-- Witness for C6: a dispatched call whose options try `format: "csv"`. -/
theorem c6_witness :
    getProp (sentParams (request mixpanelSpec testClient 1700000000
      [.vStr "events/top", .vObj [("format", .vStr "csv")], .vFun 0])) "format"
      = .vStr "json" :=
  c6_format_fixed mixpanelSpec testClient 1700000000
    [.vStr "events/top", .vObj [("format", .vStr "csv")], .vFun 0] _ _ _ rfl

/-- C7: a request to an endpoint name absent from the specification table
throws the unsupported-endpoint error synchronously; in the model the thrown
outcome carries no parameter map, no signature and no URL, so nothing
reaches the transport. -/
theorem c7_unsupported_endpoint (tbl : SpecTable) (c : Client) (now : Int)
    (argsAll : List JSValue) (ep : String)
    (hep : propKey (argsAll.headD .vUndefined) = ep)
    (hlook : specLookup tbl ep = none) :
    request tbl c now argsAll
      = .thrown ("The end-point \"" ++ ep ++
          "\" is not supported by the mixpanel export api.") := by
  simp only [request]
  rw [hep, hlook]

/-- Witness for C7 at a concrete unsupported endpoint name. -/
theorem c7_witness :
    request mixpanelSpec testClient 1700000000 [.vStr "nope", .vFun 0]
      = .thrown ("The end-point \"" ++ "nope" ++
          "\" is not supported by the mixpanel export api.") :=
  c7_unsupported_endpoint mixpanelSpec testClient 1700000000
    [.vStr "nope", .vFun 0] "nope" rfl rfl

/-- C8: the secret reaches the outgoing request only through the `sig`
digest — with every other client field, the argument list and the clock
fixed, changing the secret leaves the outcome identical once the `sig` entry
is removed, and leaves the request URL built from the `sig`-stripped
parameter map identical as well. -/
theorem c8_secret_noninterference (tbl : SpecTable)
    (key s1 s2 domain apiRoot protocol : String) (expire now : Int)
    (args : List JSValue) :
    stripSigOutcome (request tbl ⟨key, s1, domain, apiRoot, protocol, expire⟩ now args)
        = stripSigOutcome (request tbl ⟨key, s2, domain, apiRoot, protocol, expire⟩ now args)
    ∧ outcomeUrlNoSig ⟨key, s1, domain, apiRoot, protocol, expire⟩
          (request tbl ⟨key, s1, domain, apiRoot, protocol, expire⟩ now args)
        = outcomeUrlNoSig ⟨key, s2, domain, apiRoot, protocol, expire⟩
          (request tbl ⟨key, s2, domain, apiRoot, protocol, expire⟩ now args) := by
  have hstrip : stripSigOutcome (request tbl ⟨key, s1, domain, apiRoot, protocol, expire⟩
      now args) = stripSigOutcome (request tbl ⟨key, s2, domain, apiRoot, protocol, expire⟩
      now args) := by
    cases hlook : specLookup tbl (propKey (args.headD .vUndefined)) with
    | none => simp only [request, hlook]
    | some rargs =>
        simp only [request, hlook]
        split
        all_goals split
        all_goals try rfl
        all_goals split
        all_goals try rfl
        all_goals
          simp only [stripSigOutcome]
          rw [stripSig_setProp, stripSig_setProp]
  refine ⟨hstrip, ?_⟩
  rw [outcomeUrlNoSig_eq, outcomeUrlNoSig_eq, hstrip]
  cases stripSigOutcome (request tbl ⟨key, s2, domain, apiRoot, protocol, expire⟩ now args)
    with
  | thrown m => rfl
  | sent ep p cb => rfl

/-- C9: for every endpoint of the specification table the generated method
table holds a callable under the endpoint's name with `/` replaced by `_`,
and that callable behaves exactly as the generic `request` with the endpoint
name prepended to the argument list. -/
theorem c9_vanity_equiv (tbl : SpecTable) (e : String × List String) (he : e ∈ tbl) :
    ∃ f, (methodName e.1, f) ∈ vanityMethods tbl ∧
      ∀ (c : Client) (now : Int) (args : List JSValue),
        f c now args = request tbl c now (.vStr e.1 :: args) := by
  refine ⟨vanityCall tbl e.1, ?_, fun c now args => rfl⟩
  exact List.mem_map_of_mem _ he

/-- Witness for C9 at the modelled table's `events/top` entry. -/
theorem c9_witness :
    ∃ f, (methodName "events/top", f) ∈ vanityMethods mixpanelSpec ∧
      ∀ (c : Client) (now : Int) (args : List JSValue),
        f c now args = request mixpanelSpec c now (.vStr "events/top" :: args) :=
  c9_vanity_equiv mixpanelSpec ("events/top", []) (by decide)

/-- C10: a supported-endpoint call with at most `N` arguments after the
endpoint name — in particular one supplying fewer than `N` required values
plus a trailing callback, which the `slice` absorbs — throws the
missing-callback error; and on no input whatsoever does `request` throw the
missing-required-argument error, so that branch is dead code. -/
theorem c10_missing_required_unreachable :
    (∀ (tbl : SpecTable) (c : Client) (now : Int) (ep : String) (rest : List JSValue)
        (rargs : List String), specLookup tbl ep = some rargs →
        rest.length ≤ rargs.length →
        request tbl c now (.vStr ep :: rest) = .thrown "A callback is required.")
    ∧ ∀ (tbl : SpecTable) (c : Client) (now : Int) (argsAll : List JSValue),
        request tbl c now argsAll
          ≠ .thrown "A required argument for this endpoint is missing." := by
  constructor
  · intro tbl c now ep rest rargs hlook hlen
    have h0 : rest.getD rargs.length .vUndefined = .vUndefined :=
      List.getD_eq_default _ _ hlen
    have h1 : rest.getD (rargs.length + 1) .vUndefined = .vUndefined :=
      List.getD_eq_default _ _ (by omega)
    simp only [List.getD_eq_getElem?_getD] at h0 h1
    simp [request, propKey, hlook, h0, h1, isFunction, truthy]
  · intro tbl c now argsAll h
    cases hlook : specLookup tbl (propKey (argsAll.headD .vUndefined)) with
    | none =>
        simp only [request, hlook] at h
        injection h with h'
        exact unsupported_msg_ne _ h'
    | some rargs =>
        simp only [request, hlook] at h
        split at h
        case isTrue hfun =>
          split at h
          case isTrue hcb =>
            injection h with h'
            exact absurd h' (by decide)
          case isFalse hcb =>
            split at h
            case isTrue hcount =>
              rw [List.length_take] at hcount
              have hlt : argsAll.tail.length < rargs.length := by omega
              rw [List.getD_eq_default _ _ (le_of_lt hlt)] at hfun
              simp [isFunction] at hfun
            case isFalse hcount => exact absurd h (by simp)
        case isFalse hfun =>
          split at h
          case isTrue hcb =>
            injection h with h'
            exact absurd h' (by decide)
          case isFalse hcb =>
            split at h
            case isTrue hcount =>
              rw [List.length_take] at hcount
              have hlt : argsAll.tail.length < rargs.length := by omega
              rw [List.getD_eq_default _ _ (by omega :
                argsAll.tail.length ≤ rargs.length + 1)] at hcb
              simp [truthy] at hcb
            case isFalse hcount => exact absurd h (by simp)

/-- Witness for C10: `funnels` called with only a callback — fewer required
values than declared, callback present — still throws the missing-callback
error. -/
theorem c10_witness :
    request mixpanelSpec testClient 1700000000 [.vStr "funnels", .vFun 0]
      = .thrown "A callback is required." :=
  c10_missing_required_unreachable.1 mixpanelSpec testClient 1700000000 "funnels"
    [.vFun 0] ["funnel_id"] rfl (by decide)

end MixpanelExport
